import Mathlib

/-!
Sprinter motion-core configuration (`Sprinter/Configuration.h`)

A shallow embedding of the tunable constants of the firmware configuration
header, together with the small pieces of planner arithmetic that consume
them, and the properties of the shipped values.

Floating-point literals of the header (`2560.0`, `50.0`, ...) are all exactly
representable; they are embedded as rationals, so every statement below is
about exact arithmetic.  `const int` values and integer macros are naturals.
The planner formulas are stated over an arbitrary linearly ordered field `K`
(so that irrational direction cosines are covered) and evaluated over `ℚ`.
-/

namespace Sprinter

/-! ## Constants of `Configuration.h` -/

/-- Source line 24: `#define _AXIS_STEP_PER_UNIT {2560.0, 2560.0, 2560.0,990}`
(X, Y, Z, E steps per unit). -/
def _AXIS_STEP_PER_UNIT : List ℚ := [2560, 2560, 2560, 990]

/-- Source line 97: `const bool min_software_endstops = false;`
(if true, axis will not move to coordinates less than zero). -/
def min_software_endstops : Bool := false

/-- Source line 98: `const bool max_software_endstops = true;`
(if true, axis will not move to coordinates greater than the defined lengths). -/
def max_software_endstops : Bool := true

/-- Source line 104: `const int X_MAX_LENGTH = 200;` -/
def X_MAX_LENGTH : Nat := 200

/-- Source line 105: `const int Y_MAX_LENGTH = 200;` -/
def Y_MAX_LENGTH : Nat := 200

/-- Source line 110: `const int NUM_AXIS = 4;` with the remark that the axis order in all
axis related arrays is X, Y, Z, E. -/
abbrev NUM_AXIS : Nat := 4

/-- Source line 111: `#define _MAX_FEEDRATE {6, 6, 6, 10}` (mm/sec). -/
def _MAX_FEEDRATE : List ℚ := [6, 6, 6, 10]

/-- Source line 112: `#define _HOMING_FEEDRATE {240, 240, 240}` (mm/min). -/
def _HOMING_FEEDRATE : List ℚ := [240, 240, 240]

/-- Source line 113: `#define _AXIS_RELATIVE_MODES {false, false, false, false}`. -/
def _AXIS_RELATIVE_MODES : List Bool := [false, false, false, false]

/-- Source line 115: `#define MAX_STEP_FREQUENCY 30000`. -/
def MAX_STEP_FREQUENCY : Nat := 30000

/-- Source line 120: `#define MAX_RETRACT_FEEDRATE 100` (mm/sec). -/
def MAX_RETRACT_FEEDRATE : ℚ := 100

/-- Source line 146: `#define _ACCELERATION 1000` (axis normal acceleration, mm/s^2). -/
def _ACCELERATION : ℚ := 1000

/-- Source line 151: `#define _MAX_ACCELERATION_UNITS_PER_SQ_SECOND {50.0, 50.0, 0.0, 0.0}`
(X, Y, Z and E max acceleration in mm/s^2). -/
def _MAX_ACCELERATION_UNITS_PER_SQ_SECOND : List ℚ := [50, 50, 0, 0]

/-- Source line 168: `const int dropsegments=5;` (everything with less than this number of
steps will be ignored as move and joined with the next movement). -/
def dropsegments : Nat := 5

/-- Source line 185: `#define BLOCK_BUFFER_SIZE 16`. -/
def BLOCK_BUFFER_SIZE : Nat := 16

/-- Source line 186: `#define BLOCK_BUFFER_MASK 0x0f`. -/
def BLOCK_BUFFER_MASK : Nat := 0x0f

/-- Axis number of the extruder in the order X, Y, Z, E of line 110. -/
def E_AXIS : Nat := 3

/-! ## Planner arithmetic consuming the constants

The planner, the move preparation and the stepper routine are not part of
`Configuration.h`; the definitions of this section follow the specification. -/

section Planner

variable {K : Type} [LinearOrderedField K]

/-- Modelled from the spec: the software-endstop clamping of one target coordinate done
before a move is handed to the planner (the move preparation code is missing).  The
coordinate is raised to zero when the min bound is enabled and lowered to the travel
length when the max bound is enabled; a disabled bound is not applied. -/
def clamp_to_software_endstops (maxLength : Nat) (t : K) : K :=
  let t1 := if min_software_endstops = true ∧ t < 0 then 0 else t
  if max_software_endstops = true ∧ (maxLength : K) < t1 then (maxLength : K) else t1

/-- Modelled from the spec: the rounding of `round((target - current) * steps_per_unit)`
(the planner is missing); nearest integer, halves away from zero. -/
def lround (x : ℚ) : Int := if 0 ≤ x then ⌊x + 1 / 2⌋ else -⌊-x + 1 / 2⌋

/-- Modelled from the spec: the per-axis signed step deltas of a linear move,
`round((target - current) * steps_per_unit)` for each axis (the planner is missing). -/
def step_deltas (current target : Fin NUM_AXIS → ℚ) : List Int :=
  List.zipWith (fun s d => lround (d * s)) _AXIS_STEP_PER_UNIT
    (List.ofFn fun i => target i - current i)

/-- Modelled from the spec: the total step-event count of a block, the maximum over the
axes of the absolute per-axis step count (the planner is missing). -/
def step_event_count (steps : List Int) : Nat := (steps.map Int.natAbs).foldl max 0

/-- Modelled from the spec: the step resolution of `enqueue_linear_move` (the planner is
missing).  A move whose dominant-axis step count is below the `dropsegments` threshold is
ignored (`none`); any other move is planned with its step deltas and step-event count. -/
def plan_steps (current target : Fin NUM_AXIS → ℚ) : Option (List Int × Nat) :=
  let steps := step_deltas current target
  let n := step_event_count steps
  if n < dropsegments then none else some (steps, n)

/-- Modelled from the spec: the per-axis limits of a move (the planner is missing).  For
each axis whose direction cosine is non-zero, the configured per-axis maximum divided by
the absolute direction cosine; axes that do not move contribute no limit. -/
def axis_limits (lim : List ℚ) (cs : List K) : List K :=
  (List.zip lim cs).filterMap fun p => if p.2 = 0 then none else some ((p.1 : K) / |p.2|)

/-- Modelled from the spec: a value limited by every bound of a list, that is the minimum
of the value and all the bounds (the planner is missing). -/
def limit_by (v : K) (bounds : List K) : K := bounds.foldl min v

/-- Modelled from the spec: nominal speed = min(requested feedrate, per-axis max feedrate
each scaled by the direction cosine of the move) (the planner is missing). -/
def nominal_speed (f : K) (c : Fin NUM_AXIS → K) : K :=
  limit_by f (axis_limits _MAX_FEEDRATE (List.ofFn c))

/-- Modelled from the spec: the acceleration bound of a move, min over the moving axes of
(per-axis max acceleration / |direction cosine|) (the planner is missing); `none` when no
axis moves. -/
def axis_acceleration_bound (c : Fin NUM_AXIS → K) : Option K :=
  match axis_limits _MAX_ACCELERATION_UNITS_PER_SQ_SECOND (List.ofFn c) with
  | [] => none
  | b :: bs => some (limit_by b bs)

/-- Modelled from the spec: the acceleration of a block, the normal acceleration
`_ACCELERATION` limited by the per-axis acceleration limits of the move (the planner is
missing). -/
def block_acceleration (c : Fin NUM_AXIS → K) : K :=
  limit_by (_ACCELERATION : K) (axis_limits _MAX_ACCELERATION_UNITS_PER_SQ_SECOND (List.ofFn c))

/-- Direction cosines of the scenario move from (0,0,0,0) to (10,0,0,0): 1 on X and 0 on
Y, Z, E. -/
def x_only_direction : Fin NUM_AXIS → K := ![1, 0, 0, 0]

/-- Direction cosines of a move along Z only. -/
def z_only_direction : Fin NUM_AXIS → K := ![0, 0, 1, 0]

/-- Direction cosines of a diagonal move in the XY plane (a 3-4-5 triangle). -/
def xy_diagonal_direction : Fin NUM_AXIS → K := ![3 / 5, 4 / 5, 0, 0]

/-- Start position of the scenario move. -/
def scenario_start : Fin NUM_AXIS → ℚ := ![0, 0, 0, 0]

/-- Target position of the scenario move. -/
def scenario_target : Fin NUM_AXIS → ℚ := ![10, 0, 0, 0]

end Planner

/-! ## Auxiliary lemmas -/

/-- A function on the four axes listed in axis order. -/
theorem ofFn_axes {α : Type} (c : Fin NUM_AXIS → α) : List.ofFn c = [c 0, c 1, c 2, c 3] := by
  simp [List.ofFn_succ]
  rfl

section PlannerLemmas

variable {K : Type} [LinearOrderedField K]

/-- Limiting never raises the value. -/
theorem limit_by_le_init (bs : List K) : ∀ v : K, limit_by v bs ≤ v := by
  induction bs with
  | nil => intro v; simp [limit_by]
  | cons b bs ih =>
    intro v
    have h := ih (min v b)
    simp only [limit_by, List.foldl_cons] at h ⊢
    exact le_trans h (min_le_left _ _)

/-- The limited value is below every bound. -/
theorem limit_by_le_of_mem (bs : List K) :
    ∀ (v : K) {b : K}, b ∈ bs → limit_by v bs ≤ b := by
  induction bs with
  | nil => intro v b hb; simp at hb
  | cons a bs ih =>
    intro v b hb
    rcases List.mem_cons.mp hb with rfl | hb
    · have h := limit_by_le_init bs (min v b)
      simp only [limit_by, List.foldl_cons] at h ⊢
      exact le_trans h (min_le_right _ _)
    · have h := ih (min v a) hb
      simpa only [limit_by, List.foldl_cons] using h

/-- Strict lower bounds of the limited value. -/
theorem lt_limit_by_iff (bs : List K) :
    ∀ (v x : K), x < limit_by v bs ↔ x < v ∧ ∀ b ∈ bs, x < b := by
  induction bs with
  | nil => intro v x; simp [limit_by]
  | cons a bs ih =>
    intro v x
    have h := ih (min v a) x
    simp only [limit_by, List.foldl_cons] at h ⊢
    rw [h, lt_min_iff]
    simp only [List.mem_cons, forall_eq_or_imp]
    tauto

/-- Lower bounds of the limited value. -/
theorem le_limit_by_iff (bs : List K) :
    ∀ (v x : K), x ≤ limit_by v bs ↔ x ≤ v ∧ ∀ b ∈ bs, x ≤ b := by
  induction bs with
  | nil => intro v x; simp [limit_by]
  | cons a bs ih =>
    intro v x
    have h := ih (min v a) x
    simp only [limit_by, List.foldl_cons] at h ⊢
    rw [h, le_min_iff]
    simp only [List.mem_cons, forall_eq_or_imp]
    tauto

/-- A moving axis contributes its limit. -/
theorem mem_axis_limits (lim : List ℚ) :
    ∀ (cs : List K) (i : Nat) (m : ℚ) (ci : K),
      lim[i]? = some m → cs[i]? = some ci → ci ≠ 0 → (m : K) / |ci| ∈ axis_limits lim cs := by
  induction lim with
  | nil => intro cs i m ci hm; simp at hm
  | cons a lim ih =>
    intro cs i m ci hm hc hne
    cases cs with
    | nil => simp at hc
    | cons b cs =>
      cases i with
      | zero =>
        simp only [List.getElem?_cons_zero, Option.some.injEq] at hm hc
        subst hm; subst hc
        simp [axis_limits, hne]
      | succ j =>
        simp only [List.getElem?_cons_succ] at hm hc
        have h := ih cs j m ci hm hc hne
        simp only [axis_limits, List.zip_cons_cons, List.filterMap_cons] at h ⊢
        split
        · exact h
        · exact List.mem_cons_of_mem _ h

/-- Every limit comes from a moving axis. -/
theorem exists_of_mem_axis_limits (lim : List ℚ) :
    ∀ (cs : List K) (b : K), b ∈ axis_limits lim cs →
      ∃ (i : Nat) (m : ℚ) (ci : K), lim[i]? = some m ∧ cs[i]? = some ci ∧ ci ≠ 0 ∧
        b = (m : K) / |ci| := by
  induction lim with
  | nil => intro cs b hb; simp [axis_limits] at hb
  | cons a lim ih =>
    intro cs b hb
    cases cs with
    | nil => simp [axis_limits] at hb
    | cons x cs =>
      have ih2 := ih cs b
      simp only [axis_limits, List.zip_cons_cons, List.filterMap_cons] at hb ih2
      by_cases hx : x = 0
      · simp only [hx, if_true] at hb
        obtain ⟨i, m, ci, h1, h2, h3, h4⟩ := ih2 hb
        exact ⟨i + 1, m, ci, by simpa using h1, by simpa using h2, h3, h4⟩
      · simp only [hx, if_false, List.mem_cons] at hb
        rcases hb with hb | hb
        · exact ⟨0, a, x, by simp, by simp, hx, hb⟩
        · obtain ⟨i, m, ci, h1, h2, h3, h4⟩ := ih2 hb
          exact ⟨i + 1, m, ci, by simpa using h1, by simpa using h2, h3, h4⟩

/-- Limits computed from non-negative maxima are non-negative. -/
theorem axis_limits_nonneg (lim : List ℚ) (hlim : ∀ m ∈ lim, 0 ≤ m) :
    ∀ (cs : List K), ∀ b ∈ axis_limits lim cs, 0 ≤ b := by
  intro cs b hb
  obtain ⟨i, m, ci, hm, -, -, rfl⟩ := exists_of_mem_axis_limits lim cs b hb
  have hm0 : (0 : ℚ) ≤ m := hlim m (List.getElem?_mem hm)
  have hmK : (0 : K) ≤ (m : K) := by exact_mod_cast hm0
  exact div_nonneg hmK (abs_nonneg ci)

end PlannerLemmas

/-- The running maximum is below a threshold exactly when the start value and every
element are. -/
theorem foldl_max_lt_iff (l : List Nat) :
    ∀ a n : Nat, l.foldl max a < n ↔ a < n ∧ ∀ b ∈ l, b < n := by
  induction l with
  | nil => intro a n; simp
  | cons b l ih =>
    intro a n
    simp only [List.foldl_cons, ih, max_lt_iff, List.mem_cons, forall_eq_or_imp]
    tauto

/-- The running maximum dominates the start value. -/
theorem foldl_max_ge_init (l : List Nat) : ∀ a : Nat, a ≤ l.foldl max a := by
  induction l with
  | nil => intro a; simp
  | cons b l ih =>
    intro a
    simp only [List.foldl_cons]
    exact le_trans (le_max_left a b) (ih _)

/-- The running maximum dominates every element. -/
theorem foldl_max_ge_mem (l : List Nat) : ∀ (a : Nat), ∀ b ∈ l, b ≤ l.foldl max a := by
  induction l with
  | nil => intro a b hb; simp at hb
  | cons x l ih =>
    intro a b hb
    simp only [List.foldl_cons]
    rcases List.mem_cons.mp hb with rfl | hb
    · exact le_trans (le_max_right a b) (foldl_max_ge_init l _)
    · exact ih _ b hb

/-- The running maximum is the start value or one of the elements. -/
theorem foldl_max_mem (l : List Nat) :
    ∀ a : Nat, l.foldl max a = a ∨ l.foldl max a ∈ l := by
  induction l with
  | nil => intro a; simp
  | cons b l ih =>
    intro a
    simp only [List.foldl_cons, List.mem_cons]
    rcases ih (max a b) with h | h
    · rcases max_choice a b with h2 | h2
      · left; rw [h, h2]
      · right; left; rw [h, h2]
    · right; right; exact h

/-- The step deltas of a move, axis by axis. -/
theorem step_deltas_axes (current target : Fin NUM_AXIS → ℚ) :
    step_deltas current target =
      [lround ((target 0 - current 0) * 2560), lround ((target 1 - current 1) * 2560),
       lround ((target 2 - current 2) * 2560), lround ((target 3 - current 3) * 990)] := by
  rw [step_deltas, ofFn_axes]
  simp [_AXIS_STEP_PER_UNIT]

/-- The scenario move resolves to 25600 steps on X and none elsewhere. -/
theorem scenario_step_deltas :
    step_deltas scenario_start scenario_target = [25600, 0, 0, 0] := by
  have h1 : ⌊(25600 : ℚ) + 1 / 2⌋ = 25600 := by
    rw [Int.floor_eq_iff]; norm_num
  have h0 : ⌊(1 : ℚ) / 2⌋ = 0 := by
    rw [Int.floor_eq_iff]; norm_num
  rw [step_deltas_axes]
  simp [scenario_start, scenario_target, lround]
  norm_num [h1, h0]

/-! ## Properties of the shipped configuration -/

/-- C1: the block-queue capacity is the power of two `2 ^ 4`, the mask is the capacity
minus one, masking any natural index is reduction modulo the capacity, so the advanced
index `(i + 1) AND mask` is always below the capacity, and index 15 advances to 0. -/
theorem block_buffer_mask_is_mod :
    BLOCK_BUFFER_SIZE = 16 ∧ BLOCK_BUFFER_SIZE = 2 ^ 4 ∧
    BLOCK_BUFFER_MASK = 0x0f ∧ BLOCK_BUFFER_MASK = BLOCK_BUFFER_SIZE - 1 ∧
    (∀ i : Nat, i &&& BLOCK_BUFFER_MASK = i % BLOCK_BUFFER_SIZE) ∧
    (∀ i : Nat, (i + 1) &&& BLOCK_BUFFER_MASK < BLOCK_BUFFER_SIZE) ∧
    (15 + 1) &&& BLOCK_BUFFER_MASK = 0 := by
  have hmask : ∀ i : Nat, i &&& BLOCK_BUFFER_MASK = i % BLOCK_BUFFER_SIZE := by
    intro i
    have h := Nat.and_pow_two_sub_one_eq_mod i 4
    simpa [BLOCK_BUFFER_MASK, BLOCK_BUFFER_SIZE] using h
  refine ⟨rfl, by decide, rfl, by decide, hmask, ?_, by decide⟩
  intro i
  rw [hmask]
  exact Nat.mod_lt _ (by decide)

/-- C2 (as stated, refuted): `_HOMING_FEEDRATE` has three entries, not `NUM_AXIS`, so the
five axis arrays do not all have `NUM_AXIS` entries, and indexing `_HOMING_FEEDRATE` by
the axis number of E (3, which is below `NUM_AXIS`) is not defined. -/
theorem homing_feedrate_not_num_axis_entries :
    ¬ (_AXIS_STEP_PER_UNIT.length = NUM_AXIS ∧ _MAX_FEEDRATE.length = NUM_AXIS ∧
        _HOMING_FEEDRATE.length = NUM_AXIS ∧ _AXIS_RELATIVE_MODES.length = NUM_AXIS ∧
        _MAX_ACCELERATION_UNITS_PER_SQ_SECOND.length = NUM_AXIS) ∧
    E_AXIS < NUM_AXIS ∧ _HOMING_FEEDRATE[E_AXIS]? = none := by
  refine ⟨?_, by decide, by decide⟩
  rintro ⟨-, -, h, -⟩
  exact absurd h (by decide)

/-- C2 (amended): `_AXIS_STEP_PER_UNIT`, `_MAX_FEEDRATE`, `_AXIS_RELATIVE_MODES` and
`_MAX_ACCELERATION_UNITS_PER_SQ_SECOND` have exactly `NUM_AXIS` = 4 entries, so indexing
them by any axis number below `NUM_AXIS` is defined; `_HOMING_FEEDRATE` has exactly three
entries (X, Y, Z), so indexing it is defined exactly for the axis numbers below 3. -/
theorem axis_arrays_entry_counts :
    NUM_AXIS = 4 ∧
    _AXIS_STEP_PER_UNIT.length = NUM_AXIS ∧ _MAX_FEEDRATE.length = NUM_AXIS ∧
    _AXIS_RELATIVE_MODES.length = NUM_AXIS ∧
    _MAX_ACCELERATION_UNITS_PER_SQ_SECOND.length = NUM_AXIS ∧
    (∀ i : Fin NUM_AXIS,
      (_AXIS_STEP_PER_UNIT[i.val]?).isSome = true ∧ (_MAX_FEEDRATE[i.val]?).isSome = true ∧
      (_AXIS_RELATIVE_MODES[i.val]?).isSome = true ∧
      (_MAX_ACCELERATION_UNITS_PER_SQ_SECOND[i.val]?).isSome = true) ∧
    _HOMING_FEEDRATE.length = 3 ∧
    (∀ i : Nat, (_HOMING_FEEDRATE[i]?).isSome = true ↔ i < 3) := by
  refine ⟨rfl, rfl, rfl, rfl, rfl, ?_, rfl, ?_⟩
  · intro i
    fin_cases i <;> simp [_AXIS_STEP_PER_UNIT, _MAX_FEEDRATE, _AXIS_RELATIVE_MODES,
      _MAX_ACCELERATION_UNITS_PER_SQ_SECOND]
  · intro i
    rw [Option.isSome_iff_exists]
    constructor
    · rintro ⟨a, ha⟩
      have := (List.getElem?_eq_some.mp ha).1
      simpa [_HOMING_FEEDRATE] using this
    · intro hi
      have hlt : i < _HOMING_FEEDRATE.length := by simpa [_HOMING_FEEDRATE] using hi
      exact ⟨_HOMING_FEEDRATE[i], List.getElem?_eq_getElem hlt⟩

/-- C3: the shipped axis count is 4, inside the supported range 3..4, and
`_AXIS_STEP_PER_UNIT` holds `NUM_AXIS` values each of which is strictly positive
(hence non-zero). -/
theorem shipped_configuration_not_faulty :
    NUM_AXIS = 4 ∧ 3 ≤ NUM_AXIS ∧ NUM_AXIS ≤ 4 ∧
    _AXIS_STEP_PER_UNIT.length = NUM_AXIS ∧
    (∀ i : Fin NUM_AXIS, ∃ s : ℚ, _AXIS_STEP_PER_UNIT[i.val]? = some s ∧ 0 < s ∧ s ≠ 0) := by
  refine ⟨rfl, by decide, by decide, rfl, ?_⟩
  intro i
  fin_cases i <;> simp [_AXIS_STEP_PER_UNIT]

/-- C4: under the shipped software-endstop settings the clamped X or Y target coordinate
is `min t 200`; it is at most 200 for every `t`, and every `t` that is at most 200,
negative ones included, is passed through unchanged. -/
theorem clamp_is_min_with_max_length {K : Type} [LinearOrderedField K] (t : K) :
    min_software_endstops = false ∧ max_software_endstops = true ∧
    X_MAX_LENGTH = 200 ∧ Y_MAX_LENGTH = 200 ∧
    clamp_to_software_endstops X_MAX_LENGTH t = min t 200 ∧
    clamp_to_software_endstops Y_MAX_LENGTH t = min t 200 ∧
    clamp_to_software_endstops X_MAX_LENGTH t ≤ 200 ∧
    clamp_to_software_endstops Y_MAX_LENGTH t ≤ 200 ∧
    (t ≤ 200 → clamp_to_software_endstops X_MAX_LENGTH t = t ∧
      clamp_to_software_endstops Y_MAX_LENGTH t = t) := by
  have hx : clamp_to_software_endstops X_MAX_LENGTH t = min t 200 := by
    simp only [clamp_to_software_endstops, min_software_endstops, max_software_endstops,
      X_MAX_LENGTH]
    by_cases h : (200 : K) < t
    · simp [h, min_eq_right h.le]
    · simp [h, min_eq_left (not_lt.mp h)]
  have hy : clamp_to_software_endstops Y_MAX_LENGTH t = min t 200 := hx
  refine ⟨rfl, rfl, rfl, rfl, hx, hy, ?_, ?_, ?_⟩
  · rw [hx]; exact min_le_right _ _
  · rw [hy]; exact min_le_right _ _
  · intro h
    rw [hx, hy]
    exact ⟨min_eq_left h, min_eq_left h⟩

/-- C4 (witness): the negative target -5 is passed through unchanged on X and on Y, and
the target 250 is clamped to 200. -/
theorem clamp_is_min_with_max_length_witness :
    (clamp_to_software_endstops X_MAX_LENGTH (-5 : ℚ) = -5 ∧
      clamp_to_software_endstops Y_MAX_LENGTH (-5 : ℚ) = -5) ∧
    clamp_to_software_endstops X_MAX_LENGTH (250 : ℚ) = min 250 200 :=
  ⟨(clamp_is_min_with_max_length (-5 : ℚ)).2.2.2.2.2.2.2.2 (by norm_num),
    (clamp_is_min_with_max_length (250 : ℚ)).2.2.2.2.1⟩

/-- C5: a move is ignored exactly when its dominant-axis step count, the maximum over the
axes of the absolute per-axis step count, is less than `dropsegments` = 5, and is planned
exactly when that count is at least 5; the 10-unit X move of the scenario resolves to
25600 steps on X and is planned. -/
theorem short_moves_dropped (current target : Fin NUM_AXIS → ℚ) :
    dropsegments = 5 ∧
    (plan_steps current target = none ↔
      step_event_count (step_deltas current target) < dropsegments) ∧
    (plan_steps current target =
        some (step_deltas current target, step_event_count (step_deltas current target)) ↔
      dropsegments ≤ step_event_count (step_deltas current target)) ∧
    (step_event_count (step_deltas current target) < dropsegments ↔
      ∀ d ∈ step_deltas current target, d.natAbs < 5) ∧
    (∀ d ∈ step_deltas current target,
      d.natAbs ≤ step_event_count (step_deltas current target)) ∧
    (∃ d ∈ step_deltas current target,
      d.natAbs = step_event_count (step_deltas current target)) ∧
    step_deltas scenario_start scenario_target = [25600, 0, 0, 0] ∧
    plan_steps scenario_start scenario_target = some ([25600, 0, 0, 0], 25600) := by
  refine ⟨rfl, ?_, ?_, ?_, ?_, ?_, scenario_step_deltas, ?_⟩
  · simp only [plan_steps]
    split_ifs with h <;> simp [h]
  · simp only [plan_steps]
    split_ifs with h
    · simp [h]
    · simpa using h
  · simp only [step_event_count, foldl_max_lt_iff, dropsegments, List.mem_map]
    constructor
    · rintro ⟨-, h⟩ d hd
      exact h _ ⟨d, hd, rfl⟩
    · intro h
      refine ⟨by decide, ?_⟩
      rintro b ⟨d, hd, rfl⟩
      exact h d hd
  · intro d hd
    exact foldl_max_ge_mem _ 0 _ (List.mem_map_of_mem _ hd)
  · rcases foldl_max_mem ((step_deltas current target).map Int.natAbs) 0 with h | h
    · have hmem : lround ((target 0 - current 0) * 2560) ∈ step_deltas current target := by
        rw [step_deltas_axes]; simp
      refine ⟨_, hmem, ?_⟩
      have hle := foldl_max_ge_mem _ 0 _ (List.mem_map_of_mem Int.natAbs hmem)
      rw [h] at hle
      simp only [step_event_count, h]
      omega
    · obtain ⟨d, hd, hdeq⟩ := List.mem_map.mp h
      exact ⟨d, hd, hdeq⟩
  · simp [plan_steps, scenario_step_deltas, step_event_count, dropsegments]

/-- C6: for every requested feedrate `f ≥ 0` and every direction whose cosines are not all
zero, the nominal speed times the absolute direction cosine of an axis never exceeds the
maximum feedrate of that axis (`_MAX_FEEDRATE` = 6, 6, 6, 10), and the nominal speed never
exceeds the requested feedrate; for the X-only scenario move requested at 6 units/s the
nominal speed is exactly 6 units/s. -/
theorem nominal_speed_within_axis_limits {K : Type} [LinearOrderedField K]
    (f : K) (c : Fin NUM_AXIS → K) (_hf : 0 ≤ f) (_hc : ∃ i, c i ≠ 0) :
    _MAX_FEEDRATE = [6, 6, 6, 10] ∧
    (∀ i : Fin NUM_AXIS, ∃ m : ℚ, _MAX_FEEDRATE[i.val]? = some m ∧
      |c i| * nominal_speed f c ≤ (m : K)) ∧
    nominal_speed f c ≤ f ∧
    nominal_speed (6 : K) x_only_direction = 6 := by
  refine ⟨rfl, ?_, limit_by_le_init _ f, ?_⟩
  · intro i
    have hlen : i.val < _MAX_FEEDRATE.length := i.isLt
    refine ⟨_MAX_FEEDRATE[i.val], List.getElem?_eq_getElem hlen, ?_⟩
    have hm0 : (0 : K) ≤ ((_MAX_FEEDRATE[i.val] : ℚ) : K) := by
      have : (0 : ℚ) ≤ _MAX_FEEDRATE[i.val] := by
        fin_cases i <;> simp [_MAX_FEEDRATE]
      exact_mod_cast this
    by_cases hci : c i = 0
    · simpa [hci] using hm0
    · have hc : (List.ofFn c)[i.val]? = some (c i) := by
        rw [ofFn_axes]
        fin_cases i <;> rfl
      have hmem := mem_axis_limits _MAX_FEEDRATE (List.ofFn c) i.val _ (c i)
        (List.getElem?_eq_getElem hlen) hc hci
      have hle := limit_by_le_of_mem _ f hmem
      have hpos : 0 < |c i| := abs_pos.mpr hci
      have := (le_div_iff₀ hpos).mp hle
      simpa [nominal_speed, mul_comm] using this
  · simp [nominal_speed, x_only_direction, axis_limits, limit_by, _MAX_FEEDRATE,
      List.ofFn_succ]

/-- C6 (witness): a diagonal XY move with direction cosines 3/5 and 4/5 requested at
100 units/s stays within every per-axis maximum feedrate. -/
theorem nominal_speed_within_axis_limits_witness :
    (0 : ℚ) ≤ 100 ∧ (∃ i, (xy_diagonal_direction : Fin NUM_AXIS → ℚ) i ≠ 0) ∧
    (∀ i : Fin NUM_AXIS, ∃ m : ℚ, _MAX_FEEDRATE[i.val]? = some m ∧
      |(xy_diagonal_direction : Fin NUM_AXIS → ℚ) i| *
        nominal_speed (100 : ℚ) xy_diagonal_direction ≤ ((m : ℚ) : ℚ)) :=
  ⟨by norm_num, ⟨0, by simp [xy_diagonal_direction]⟩,
    (nominal_speed_within_axis_limits (100 : ℚ) xy_diagonal_direction (by norm_num)
      ⟨0, by simp [xy_diagonal_direction]⟩).2.1⟩

/-- C7 (as stated, refuted): for the X-only scenario move the block acceleration is not
1000 units/s^2. -/
theorem x_only_block_acceleration_ne_1000 :
    block_acceleration (x_only_direction : Fin NUM_AXIS → ℚ) ≠ 1000 := by
  have h : block_acceleration (x_only_direction : Fin NUM_AXIS → ℚ) = 50 := by
    simp [block_acceleration, x_only_direction, axis_limits, limit_by,
      _MAX_ACCELERATION_UNITS_PER_SQ_SECOND, List.ofFn_succ, _ACCELERATION]
    norm_num
  rw [h]
  norm_num

/-- C7 (amended): for the X-only scenario move (direction cosine 1 on X, 0 on Y, Z, E) the
block acceleration is 50 units/s^2: the X maximum acceleration 50 divided by the cosine 1
is the only per-axis limit and lies below the normal acceleration `_ACCELERATION` = 1000. -/
theorem x_only_block_acceleration {K : Type} [LinearOrderedField K] :
    (_ACCELERATION : ℚ) = 1000 ∧
    axis_acceleration_bound (x_only_direction : Fin NUM_AXIS → K) = some 50 ∧
    block_acceleration (x_only_direction : Fin NUM_AXIS → K) = 50 := by
  refine ⟨rfl, ?_, ?_⟩
  · simp [axis_acceleration_bound, x_only_direction, axis_limits, limit_by,
      _MAX_ACCELERATION_UNITS_PER_SQ_SECOND, List.ofFn_succ]
  · simp [block_acceleration, x_only_direction, axis_limits, limit_by,
      _MAX_ACCELERATION_UNITS_PER_SQ_SECOND, List.ofFn_succ, _ACCELERATION]
    norm_num

/-- C8 (as stated, refuted): the retract cap corresponds to 100 x 990 = 99000 steps/s on
the E axis, which is above `MAX_STEP_FREQUENCY` = 30000. -/
theorem retract_feedrate_exceeds_step_frequency :
    ∃ s : ℚ, _AXIS_STEP_PER_UNIT[E_AXIS]? = some s ∧
      MAX_RETRACT_FEEDRATE * s = 99000 ∧
      ¬ (MAX_RETRACT_FEEDRATE * s ≤ (MAX_STEP_FREQUENCY : ℚ)) := by
  refine ⟨990, by simp [_AXIS_STEP_PER_UNIT, E_AXIS], ?_, ?_⟩ <;>
    norm_num [MAX_RETRACT_FEEDRATE, MAX_STEP_FREQUENCY]

/-- C8 (amended): for each axis X, Y, Z, E the per-axis feedrate cap times the steps per
unit of that axis is at most `MAX_STEP_FREQUENCY` = 30000 steps/s; the extruder retract
cap times the E steps per unit is above it. -/
theorem max_feedrate_within_step_frequency :
    MAX_STEP_FREQUENCY = 30000 ∧
    (∀ i : Fin NUM_AXIS, ∃ f s : ℚ, _MAX_FEEDRATE[i.val]? = some f ∧
      _AXIS_STEP_PER_UNIT[i.val]? = some s ∧ f * s ≤ (MAX_STEP_FREQUENCY : ℚ)) ∧
    (∃ s : ℚ, _AXIS_STEP_PER_UNIT[E_AXIS]? = some s ∧
      (MAX_STEP_FREQUENCY : ℚ) < MAX_RETRACT_FEEDRATE * s) := by
  refine ⟨rfl, ?_, ?_⟩
  · intro i
    fin_cases i <;> simp [_MAX_FEEDRATE, _AXIS_STEP_PER_UNIT, MAX_STEP_FREQUENCY] <;>
      norm_num
  · refine ⟨990, by simp [_AXIS_STEP_PER_UNIT, E_AXIS], ?_⟩
    norm_num [MAX_RETRACT_FEEDRATE, MAX_STEP_FREQUENCY]

/-- C9: `_HOMING_FEEDRATE` has an entry exactly for X, Y, Z, and each of them, converted
from mm/min to mm/sec by dividing by 60, is at most the maximum feedrate of its axis, so
limiting the converted homing feedrate by that maximum leaves it unchanged. -/
theorem homing_feedrate_within_max_feedrate :
    _HOMING_FEEDRATE.length = 3 ∧
    ∀ i : Fin 3, ∃ h m : ℚ, _HOMING_FEEDRATE[i.val]? = some h ∧
      _MAX_FEEDRATE[i.val]? = some m ∧ h / 60 ≤ m ∧ min (h / 60) m = h / 60 := by
  refine ⟨rfl, ?_⟩
  intro i
  fin_cases i <;> simp [_HOMING_FEEDRATE, _MAX_FEEDRATE] <;> norm_num

/-- C10 (as stated, refuted): a move along Z only displaces an axis, yet its per-axis
acceleration bound is 0, which is not strictly positive; the configured maximum
acceleration of Z is 0. -/
theorem z_only_acceleration_bound_zero :
    (∃ i, (z_only_direction : Fin NUM_AXIS → ℚ) i ≠ 0) ∧
    axis_acceleration_bound (z_only_direction : Fin NUM_AXIS → ℚ) = some 0 ∧
    _MAX_ACCELERATION_UNITS_PER_SQ_SECOND[2]? = some 0 ∧ ¬ ((0 : ℚ) < 0) := by
  refine ⟨⟨2, by simp [z_only_direction]⟩, ?_, rfl, lt_irrefl _⟩
  simp [axis_acceleration_bound, z_only_direction, axis_limits, limit_by,
    _MAX_ACCELERATION_UNITS_PER_SQ_SECOND, List.ofFn_succ]

/-- C10 (amended): for every move that displaces at least one axis the per-axis
acceleration bound exists and is non-negative, and it is strictly positive exactly when
the move displaces neither Z nor E; the configured maximum acceleration is strictly
positive exactly for X and Y. -/
theorem axis_acceleration_bound_pos_iff {K : Type} [LinearOrderedField K]
    (c : Fin NUM_AXIS → K) (hc : ∃ i, c i ≠ 0) :
    (∃ b : K, axis_acceleration_bound c = some b ∧ 0 ≤ b ∧
      (0 < b ↔ c 2 = 0 ∧ c 3 = 0)) ∧
    (∀ i : Fin NUM_AXIS, ∃ a : ℚ, _MAX_ACCELERATION_UNITS_PER_SQ_SECOND[i.val]? = some a ∧
      (0 < a ↔ i.val < 2)) := by
  refine ⟨?_, ?_⟩
  swap
  · intro i
    fin_cases i <;> simp [_MAX_ACCELERATION_UNITS_PER_SQ_SECOND]
  have hof := ofFn_axes c
  obtain ⟨i0, hi0⟩ := hc
  have hget : (List.ofFn c)[i0.val]? = some (c i0) := by
    rw [hof]; fin_cases i0 <;> rfl
  have hlen : i0.val < _MAX_ACCELERATION_UNITS_PER_SQ_SECOND.length := i0.isLt
  have hmem0 := mem_axis_limits _MAX_ACCELERATION_UNITS_PER_SQ_SECOND (List.ofFn c) i0.val _
    (c i0) (List.getElem?_eq_getElem hlen) hget hi0
  have hnn := axis_limits_nonneg (K := K) _MAX_ACCELERATION_UNITS_PER_SQ_SECOND
    (by simp [_MAX_ACCELERATION_UNITS_PER_SQ_SECOND]) (List.ofFn c)
  have hall : (∀ x ∈ axis_limits _MAX_ACCELERATION_UNITS_PER_SQ_SECOND (List.ofFn c),
      (0 : K) < x) ↔ c 2 = 0 ∧ c 3 = 0 := by
    constructor
    · intro h
      constructor
      · by_contra h2
        have := h _ (mem_axis_limits _MAX_ACCELERATION_UNITS_PER_SQ_SECOND (List.ofFn c) 2 0
          (c 2) rfl (by rw [hof]; rfl) h2)
        simp at this
      · by_contra h3
        have := h _ (mem_axis_limits _MAX_ACCELERATION_UNITS_PER_SQ_SECOND (List.ofFn c) 3 0
          (c 3) rfl (by rw [hof]; rfl) h3)
        simp at this
    · rintro ⟨h2, h3⟩ x hx
      obtain ⟨i, m, ci, hm, hci, hne, rfl⟩ := exists_of_mem_axis_limits _ _ _ hx
      rw [hof] at hci
      have hpos : 0 < |ci| := abs_pos.mpr hne
      rcases i with _ | _ | _ | _ | i <;>
        simp [_MAX_ACCELERATION_UNITS_PER_SQ_SECOND] at hm hci
      · subst hm; exact div_pos (by norm_num) hpos
      · subst hm; exact div_pos (by norm_num) hpos
      · exact absurd (hci ▸ h2) hne
      · exact absurd (hci ▸ h3) hne
  unfold axis_acceleration_bound
  cases hL : axis_limits _MAX_ACCELERATION_UNITS_PER_SQ_SECOND (List.ofFn c) with
  | nil => rw [hL] at hmem0; simp at hmem0
  | cons b bs =>
    rw [hL] at hnn hall
    refine ⟨limit_by b bs, rfl, ?_, ?_⟩
    · rw [le_limit_by_iff]
      exact ⟨hnn b (List.mem_cons_self _ _), fun x hx => hnn x (List.mem_cons_of_mem _ hx)⟩
    · rw [lt_limit_by_iff, ← hall]
      simp only [List.mem_cons, forall_eq_or_imp]

/-- C10 (witness): the diagonal XY move displaces an axis and neither Z nor E, so its
acceleration bound is strictly positive. -/
theorem axis_acceleration_bound_pos_iff_witness :
    (∃ i, (xy_diagonal_direction : Fin NUM_AXIS → ℚ) i ≠ 0) ∧
    (∃ b : ℚ, axis_acceleration_bound (xy_diagonal_direction : Fin NUM_AXIS → ℚ) = some b ∧
      0 ≤ b ∧ (0 < b ↔ (xy_diagonal_direction : Fin NUM_AXIS → ℚ) 2 = 0 ∧
        (xy_diagonal_direction : Fin NUM_AXIS → ℚ) 3 = 0)) :=
  ⟨⟨0, by simp [xy_diagonal_direction]⟩,
    (axis_acceleration_bound_pos_iff (xy_diagonal_direction : Fin NUM_AXIS → ℚ)
      ⟨0, by simp [xy_diagonal_direction]⟩).1⟩

end Sprinter
